import Mathlib

/-!
# Verification of the PubMed Hot Topics pipeline (`app.py`)

A shallow embedding of the entity-extraction and phrase-aggregation
pipeline of `app.py`, together with theorems settling the specification
claims about it.

Modelling conventions:
* Python strings are Lean `String`s; the embedding of the regular
  expression `\W` and of `str.lower()` covers the ASCII fragment
  (all stoplist entries, examples and counterexamples are ASCII).
* The network is an explicit oracle value passed to the embedded
  functions; each embedded function additionally returns the list of
  HTTP calls it made, so "no network call" is a provable statement.
* A Python exception that the source does not catch is modelled as
  `Except.error`; a caught exception is collapsed to the value the
  handler returns, as the source does.
-/

namespace PubMed

/-! ## Character-level infrastructure

`app.py` line 88 normalizes a raw entity with
`re.sub(r'\W+', '', e).lower()`.  In Python, `\W` matches any character
that is NOT a word character, and a word character is a letter, a digit
or an underscore; over the ASCII fragment that is `[0-9A-Za-z_]`.
-/

/-- ASCII word character, the ASCII fragment of Python's regex `\w`:
digits `0`-`9`, letters `A`-`Z` and `a`-`z`, and the underscore `_`. -/
def isWordChar (c : Char) : Bool :=
  decide ((48 ≤ c.toNat ∧ c.toNat ≤ 57) ∨ (65 ≤ c.toNat ∧ c.toNat ≤ 90) ∨
    (97 ≤ c.toNat ∧ c.toNat ≤ 122) ∨ c.toNat = 95)

theorem char_toNat_ofNat {n : Nat} (h : n < 55296) : (Char.ofNat n).toNat = n := by
  rw [Char.ofNat, dif_pos (Or.inl h)]
  rfl

theorem toLower_eq (c : Char) :
    Char.toLower c =
      if 65 ≤ c.toNat ∧ c.toNat ≤ 90 then Char.ofNat (c.toNat + 32) else c := rfl

theorem toNat_toLower (c : Char) :
    (Char.toLower c).toNat =
      if 65 ≤ c.toNat ∧ c.toNat ≤ 90 then c.toNat + 32 else c.toNat := by
  rw [toLower_eq]
  split
  · next h => exact char_toNat_ofNat (by omega)
  · rfl

theorem toLower_eq_self {c : Char} (h : ¬(65 ≤ c.toNat ∧ c.toNat ≤ 90)) :
    Char.toLower c = c := by
  rw [toLower_eq, if_neg h]

theorem isWordChar_toLower {c : Char} (h : isWordChar c = true) :
    isWordChar (Char.toLower c) = true := by
  have hv := toNat_toLower c
  simp only [isWordChar, decide_eq_true_eq] at h ⊢
  split at hv <;> omega

theorem toLower_toLower (c : Char) :
    Char.toLower (Char.toLower c) = Char.toLower c := by
  by_cases h : 65 ≤ c.toNat ∧ c.toNat ≤ 90
  · have hv := toNat_toLower c
    rw [if_pos h] at hv
    exact toLower_eq_self (by omega)
  · rw [toLower_eq_self h, toLower_eq_self h]

/-! ## Token Normalizer

The inline normalizer of `get_ngrams` (`app.py` line 88):
`re.sub(r'\W+', '', e).lower()`.  Replacing every maximal run of
non-word characters by the empty string is the same as deleting every
non-word character, so the embedding filters by `isWordChar` and then
lowercases. -/

/-- Embedding of `re.sub(r'\W+', '', e).lower()` (`app.py` line 88):
delete every character that is not a word character, then lowercase. -/
def normalize (s : String) : String :=
  ⟨(s.data.filter isWordChar).map Char.toLower⟩

theorem normalize_data (s : String) :
    (normalize s).data = (s.data.filter isWordChar).map Char.toLower := rfl

theorem mem_normalize_isWordChar {s : String} {c : Char}
    (h : c ∈ (normalize s).data) : isWordChar c = true := by
  rw [normalize_data] at h
  obtain ⟨b, hb, rfl⟩ := List.mem_map.mp h
  exact isWordChar_toLower (List.of_mem_filter hb)

theorem mem_normalize_toLower {s : String} {c : Char}
    (h : c ∈ (normalize s).data) : Char.toLower c = c := by
  rw [normalize_data] at h
  obtain ⟨b, hb, rfl⟩ := List.mem_map.mp h
  exact toLower_toLower b

theorem uint32_le_iff {a b : UInt32} : a ≤ b ↔ a.toNat ≤ b.toNat := Iff.rfl

theorem isLower_iff {c : Char} : c.isLower = true ↔ 97 ≤ c.toNat ∧ c.toNat ≤ 122 := by
  simp [Char.isLower, uint32_le_iff]
  exact Iff.rfl

theorem isDigit_iff {c : Char} : c.isDigit = true ↔ 48 ≤ c.toNat ∧ c.toNat ≤ 57 := by
  simp [Char.isDigit, uint32_le_iff]
  exact Iff.rfl

theorem eq_underscore_iff {c : Char} : c = '_' ↔ c.toNat = 95 := by
  constructor
  · rintro rfl; rfl
  · intro h
    exact Char.ext (UInt32.toNat.inj (by simpa using h))

theorem normalize_eq_self {s : String} (h1 : ∀ c ∈ s.data, isWordChar c = true)
    (h2 : ∀ c ∈ s.data, Char.toLower c = c) : normalize s = s := by
  cases s with
  | mk l =>
    show String.mk ((l.filter isWordChar).map Char.toLower) = String.mk l
    rw [List.filter_eq_self.mpr h1]
    congr 1
    calc l.map Char.toLower = l.map id := List.map_congr_left (fun a ha => h2 a ha)
    _ = l := List.map_id l

/-! ## Claims C3 and C9: the Token Normalizer -/

/-- C3 counterexample: the claim says the normalizer removes every
character that is not a letter or digit, leaving only lowercase letters
and digits.  On input `"a_b"` the underscore survives (`\W` in Python
treats `_` as a word character), and `_` is neither a letter nor a
digit. -/
theorem c3_normalize_counterexample :
    normalize "a_b" = "a_b" ∧ '_' ∈ (normalize "a_b").data ∧
      '_'.isAlphanum = false := by
  decide

/-- C3 (amended): the normalizer removes every character that is not a
letter, digit or underscore (each such run collapses to nothing, not to a
separator) and lowercases the remainder; `normalize "A-1 b!" = "a1b"`;
every character of the result is a lowercase letter, a digit, or an
underscore. -/
theorem c3_normalize_amended (s junk t : String)
    (hjunk : ∀ c ∈ junk.data, isWordChar c = false) :
    (∀ c ∈ (normalize s).data, c.isLower = true ∨ c.isDigit = true ∨ c = '_')
    ∧ normalize (s ++ junk ++ t) = normalize (s ++ t)
    ∧ normalize "A-1 b!" = "a1b" := by
  refine ⟨?_, ?_, by decide⟩
  · intro c hc
    have hw := mem_normalize_isWordChar hc
    have hf := mem_normalize_toLower hc
    have hn := toNat_toLower c
    simp only [isWordChar, decide_eq_true_eq] at hw
    rcases hw with h | h | h | h
    · exact Or.inr (Or.inl (isDigit_iff.mpr h))
    · rw [if_pos h, hf] at hn
      omega
    · exact Or.inl (isLower_iff.mpr h)
    · exact Or.inr (Or.inr (eq_underscore_iff.mpr h))
  · have hj : List.filter isWordChar junk.data = [] :=
      List.filter_eq_nil_iff.mpr (fun a ha => by simp [hjunk a ha])
    unfold normalize
    congr 2
    rw [String.data_append, String.data_append, String.data_append,
      List.filter_append, List.filter_append, List.filter_append, hj,
      List.append_nil]

/-- C3 witness: the amended theorem applied at concrete inputs. -/
theorem c3_normalize_amended_witness :
    (∀ c ∈ (normalize "Ab1").data, c.isLower = true ∨ c.isDigit = true ∨ c = '_')
    ∧ normalize ("Ab1" ++ "- !" ++ "Y") = normalize ("Ab1" ++ "Y")
    ∧ normalize "A-1 b!" = "a1b" :=
  c3_normalize_amended "Ab1" "- !" "Y" (by decide)

/-- C9: the Token Normalizer is idempotent:
`normalize (normalize x) = normalize x` for every string `x`. -/
theorem c9_normalize_idempotent (x : String) :
    normalize (normalize x) = normalize x :=
  normalize_eq_self (fun _ hc => mem_normalize_isWordChar hc)
    (fun _ hc => mem_normalize_toLower hc)

/-! ## Entity Extractor (`get_entities`, `app.py` lines 65-79) -/

/-- The stoplist `generic_terms` (`app.py` lines 25-28). -/
def generic_terms : List String :=
  ["study", "patient", "patients", "trial", "results", "effect", "effects",
   "group", "clinical", "analysis", "evaluation", "treatment", "data"]

/-- One entity object of the NER response body; `word = none` models a
JSON object carrying no `word` field (the `'word' in e` test fails). -/
structure NerEntity where
  word : Option String
deriving DecidableEq

/-- Outcome of the HTTP POST to the NER service: a transport failure
(`requests.post` raising, including timeout), or a reply with a status
code and a body.  A body of `none` models a response that cannot be read
as a list of entity objects (any exception inside the `try` is caught by
the bare `except`). -/
inductive NerResponse where
  | transportError
  | reply (status : Nat) (body : Option (List NerEntity))
deriving DecidableEq

/-- An HTTP call issued by the embedded code, recording the payload
(`{"inputs": text}`) and the timeout the source passes to
`requests.post`. -/
structure HttpCall where
  payload : String
  timeout : Nat
deriving DecidableEq

/-- Python `str.lower()` over the ASCII fragment. -/
def lowerStr (s : String) : String := ⟨s.data.map Char.toLower⟩

/-- Embedding of `get_entities` (`app.py` lines 65-79).  The network is
the explicit oracle `net`; the second component lists the HTTP calls the
function made, so "no network call" is provable.  Python's
`if not hf_token` is the emptiness test on the token string; the
comprehension keeps `e['word']` for every object having a `word` field
whose lowercased word is not in `generic_terms`. -/
def get_entities (hf_token : String) (text : String) (net : NerResponse) :
    List String × List HttpCall :=
  if hf_token = "" then ([], [])
  else
    match net with
    | .transportError => ([], [⟨text, 30⟩])
    | .reply status body =>
      if status = 200 then
        match body with
        | none => ([], [⟨text, 30⟩])
        | some ents =>
          ((ents.filterMap fun e =>
              match e.word with
              | some w =>
                if generic_terms.contains (lowerStr w) then none else some w
              | none => none),
           [⟨text, 30⟩])
      else ([], [⟨text, 30⟩])

/-- C1 counterexample: the claim also short-circuits on an empty or
whitespace-only title, but the code tests only the credential.  With a
nonempty credential and an empty title the call is still issued (one
`HttpCall` is recorded) and the reply's entities are returned. -/
theorem c1_get_entities_counterexample :
    get_entities "tok" "" (.reply 200 (some [⟨some "Diabetes"⟩]))
      = (["Diabetes"], [⟨"", 30⟩]) := by
  decide

/-- C1 (amended): if the credential is absent or empty, `get_entities`
returns an empty sequence immediately and makes no network call, for
every title and network behaviour.  (The title itself is never tested:
an empty title with a nonempty credential still issues the call.) -/
theorem c1_get_entities_amended (text : String) (net : NerResponse) :
    get_entities "" text net = ([], []) := by
  simp [get_entities]

/-- C5: with a nonempty credential, a transport failure, a non-200
status, and a malformed body each yield an empty sequence (the pipeline
is never aborted by one title's extraction), and whatever the network
does, exactly one HTTP call is made, with timeout 30. -/
theorem c5_get_entities_recovery (tok text : String) (net : NerResponse)
    (htok : tok ≠ "") :
    (get_entities tok text .transportError).1 = []
    ∧ (∀ status body, status ≠ 200 →
        (get_entities tok text (.reply status body)).1 = [])
    ∧ (get_entities tok text (.reply 200 none)).1 = []
    ∧ (get_entities tok text net).2 = [⟨text, 30⟩] := by
  refine ⟨by simp [get_entities, htok], ?_, by simp [get_entities, htok], ?_⟩
  · intro status body h
    cases body <;> simp [get_entities, htok, h]
  · cases net with
    | transportError => simp [get_entities, htok]
    | reply status body =>
      by_cases h : status = 200 <;> cases body <;> simp [get_entities, htok, h]

/-- C5 witness: the recovery theorem applied at a concrete non-200
reply. -/
theorem c5_get_entities_recovery_witness :
    (get_entities "tok" "t" (.reply 500 none)).1 = []
    ∧ (get_entities "tok" "t" (.reply 500 none)).2 = [⟨"t", 30⟩] :=
  ⟨(c5_get_entities_recovery "tok" "t" (.reply 500 none) (by decide)).2.1
      500 none (by decide),
   (c5_get_entities_recovery "tok" "t" (.reply 500 none) (by decide)).2.2.2⟩

/-! ## N-gram Builder (`get_ngrams`, `app.py` lines 85-90) -/

/-- The per-article token list of `get_ngrams` (`app.py` line 88):
`[re.sub(r'\W+', '', e).lower() for e in entities if e]`.  Only entities
that are the empty string (Python-falsy) are filtered out, before
normalization. -/
def article_tokens (entities : List String) : List String :=
  (entities.filter fun e => e ≠ "").map normalize

/-- Embedding of `get_ngrams` (`app.py` lines 85-90).  For each article,
Python's `range(len(tokens) - n + 1)` is empty whenever
`len(tokens) - n + 1 <= 0`, which over `Nat` is exactly
`List.range (tokens.length + 1 - n)`; the window `tokens[i:i+n]` is
`(tokens.drop i).take n`, joined with a single space. -/
def get_ngrams (entity_lists : List (List String)) (n : Nat) : List String :=
  entity_lists.flatMap fun entities =>
    let tokens := article_tokens entities
    (List.range (tokens.length + 1 - n)).map fun i =>
      " ".intercalate ((tokens.drop i).take n)

theorem get_ngrams_singleton (entities : List String) (n : Nat) :
    get_ngrams [entities] n =
      (List.range ((article_tokens entities).length + 1 - n)).map fun i =>
        " ".intercalate (((article_tokens entities).drop i).take n) := by
  simp [get_ngrams]

/-- C2 counterexample: the entity `"!!!"` is nonempty, so the code keeps
it, and its normalization is the empty token; with width 2 the produced
phrases are `"a "` (trailing space: the empty token is the second half
of the window) and `" b"` — phrases do contain empty tokens. -/
theorem c2_get_ngrams_counterexample :
    get_ngrams [["a", "!!!", "b"]] 2 = ["a ", " b"]
      ∧ normalize "!!!" = ""
      ∧ "a ".data = ['a', ' '] := by
  decide

/-- C2 (amended): `get_ngrams` drops an entity from an article's token
list iff the entity is literally the empty string; the dropping happens
before normalization, so a nonempty entity whose normalization is empty
is kept as an empty token and produced phrases may contain empty tokens.
The token list is exactly the normalization of the nonempty entities in
order, and width-1 phrases are exactly those tokens. -/
theorem c2_get_ngrams_amended (entities : List String) (e : String)
    (he : e ∈ entities) (hne : e ≠ "") :
    normalize e ∈ article_tokens entities
    ∧ (article_tokens entities).length
        = (entities.filter fun x => x ≠ "").length
    ∧ get_ngrams [entities] 1 = article_tokens entities := by
  refine ⟨?_, List.length_map _ _, ?_⟩
  · exact List.mem_map_of_mem _ (List.mem_filter.mpr ⟨he, by simp [hne]⟩)
  · rw [get_ngrams_singleton]
    apply List.ext_getElem
    · simp
    · intro i h1 h2
      simp only [List.getElem_map, List.getElem_range]
      rw [List.take_one_drop_eq_of_lt_length (by simpa using h2)]
      rfl

/-- C2 witness: the amended theorem applied at a concrete article. -/
theorem c2_get_ngrams_amended_witness :
    normalize "A!" ∈ article_tokens ["A!", "", "b"]
    ∧ (article_tokens ["A!", "", "b"]).length
        = (["A!", "", "b"].filter fun x => x ≠ "").length
    ∧ get_ngrams [["A!", "", "b"]] 1 = article_tokens ["A!", "", "b"] :=
  c2_get_ngrams_amended ["A!", "", "b"] "A!" (by decide) (by decide)

/-- C6: for every article and width `w ≥ 1`, `get_ngrams` slides a
window of size `w` with stride 1 across the article's token list: there
are `len + 1 - w` phrases, the `i`-th phrase is the space-join of
`tokens[i:i+w]`, an article with fewer than `w` tokens contributes zero
phrases (never a truncated one), windows never span two articles (the
output is the concatenation of per-article phrase lists, in article
order), and the spec's width-2 and width-3 examples hold. -/
theorem c6_get_ngrams_window (batch : List (List String))
    (entities : List String) (w : Nat) (hw : 1 ≤ w) :
    (get_ngrams [entities] w).length
        = (article_tokens entities).length + 1 - w
    ∧ (∀ i, i < (article_tokens entities).length + 1 - w →
        (get_ngrams [entities] w)[i]?
          = some (" ".intercalate (((article_tokens entities).drop i).take w)))
    ∧ ((article_tokens entities).length < w → get_ngrams [entities] w = [])
    ∧ get_ngrams (entities :: batch) w
        = get_ngrams [entities] w ++ get_ngrams batch w
    ∧ get_ngrams [["diabetes", "type", "2"]] 2 = ["diabetes type", "type 2"]
    ∧ get_ngrams [["diabetes", "type", "2"]] 3 = ["diabetes type 2"] := by
  have _ := hw
  refine ⟨?_, ?_, ?_, ?_, by decide, by decide⟩
  · simp [get_ngrams_singleton]
  · intro i hi
    rw [get_ngrams_singleton]
    simp [List.getElem?_map, List.getElem?_range, hi]
  · intro hlt
    rw [get_ngrams_singleton]
    have h0 : (article_tokens entities).length + 1 - w = 0 := by omega
    simp [h0]
  · simp [get_ngrams]

/-- C6 witness: the windowing theorem applied at the spec's example
article with width 2. -/
theorem c6_get_ngrams_window_witness :
    (get_ngrams [["diabetes", "type", "2"]] 2).length
        = (article_tokens ["diabetes", "type", "2"]).length + 1 - 2
    ∧ (get_ngrams [["diabetes", "type", "2"]] 2)[1]?
        = some (" ".intercalate
            (((article_tokens ["diabetes", "type", "2"]).drop 1).take 2))
    ∧ get_ngrams [["diabetes", "type", "2"]] 2
        = ["diabetes type", "type 2"] :=
  ⟨(c6_get_ngrams_window [] ["diabetes", "type", "2"] 2 (by decide)).1,
   (c6_get_ngrams_window [] ["diabetes", "type", "2"] 2 (by decide)).2.1
      1 (by decide),
   (c6_get_ngrams_window [] ["diabetes", "type", "2"] 2 (by decide)).2.2.2.2.1⟩

/-! ## Frequency Aggregator (`collections.Counter`) -/

/-- The distinct elements of `xs` in first-occurrence order (Python dict
insertion order, which `collections.Counter` inherits). -/
def dedupKeys : List String → List String
  | [] => []
  | x :: xs => x :: (dedupKeys xs).filter fun y => y ≠ x

/-- Embedding of `collections.Counter` on a list of strings: one entry
per distinct element in first-occurrence order, paired with its
multiplicity. -/
def counter (xs : List String) : List (String × Nat) :=
  (dedupKeys xs).map fun k => (k, xs.count k)

theorem mem_dedupKeys {xs : List String} {k : String} :
    k ∈ dedupKeys xs ↔ k ∈ xs := by
  induction xs with
  | nil => simp [dedupKeys]
  | cons x xs ih =>
    simp only [dedupKeys, List.mem_cons, List.mem_filter]
    constructor
    · rintro (rfl | ⟨h1, _⟩)
      · exact Or.inl rfl
      · exact Or.inr (ih.mp h1)
    · rintro (rfl | h)
      · exact Or.inl rfl
      · by_cases hk : k = x
        · exact Or.inl hk
        · exact Or.inr ⟨ih.mpr h, by simp [hk]⟩

/-- `all_words = list(chain.from_iterable(df['entities']))` (`app.py`
line 96): the flat sequence of raw (post-stoplist, unnormalized)
entities, in article order. -/
def all_words (entity_lists : List (List String)) : List String :=
  entity_lists.flatten

/-! ## Claims C4 and C10: the frequency tables -/

/-- C4: the unigram table is built from the raw entity strings (original
casing) while the bigram/trigram tables are built from normalized
tokens: on the batch `[["Diabetes", "Type"], []]` the unigram table is
`{"Diabetes": 1, "Type": 1}`, the bigram table is
`{"diabetes type": 1}`, and the trigram table is empty. -/
theorem c4_freq_asymmetry :
    counter (all_words [["Diabetes", "Type"], []])
        = [("Diabetes", 1), ("Type", 1)]
    ∧ counter (get_ngrams [["Diabetes", "Type"], []] 2)
        = [("diabetes type", 1)]
    ∧ counter (get_ngrams [["Diabetes", "Type"], []] 3) = [] := by
  decide

/-- C10: every frequency table maps each key to a strictly positive
count — a string is a key of `counter xs` iff it occurs in `xs`, and
each key's entry is its (positive) multiplicity; no zero-count entries
exist. -/
theorem c10_counter_invariant (xs : List String) (k : String) :
    ((∃ n, (k, n) ∈ counter xs) ↔ k ∈ xs)
    ∧ (∀ n, (k, n) ∈ counter xs → 0 < n ∧ n = xs.count k) := by
  constructor
  · constructor
    · rintro ⟨n, hn⟩
      obtain ⟨a, ha, heq⟩ := List.mem_map.mp hn
      obtain ⟨rfl, -⟩ := Prod.mk.injEq .. ▸ heq
      exact mem_dedupKeys.mp ha
    · intro hk
      exact ⟨xs.count k, List.mem_map_of_mem _ (mem_dedupKeys.mpr hk)⟩
  · intro n hn
    obtain ⟨a, ha, heq⟩ := List.mem_map.mp hn
    obtain ⟨rfl, rfl⟩ := Prod.mk.injEq .. ▸ heq
    exact ⟨List.count_pos_iff.mpr (mem_dedupKeys.mp ha), rfl⟩

/-- C10 witness: the invariant applied to the spec's example
`count(["a","a","b"])`. -/
theorem c10_counter_invariant_witness :
    (∃ n, ("a", n) ∈ counter ["a", "a", "b"])
    ∧ (0 < 2 ∧ 2 = ["a", "a", "b"].count "a") :=
  ⟨(c10_counter_invariant ["a", "a", "b"] "a").1.mpr (by decide),
   (c10_counter_invariant ["a", "a", "b"] "a").2 2 (by decide)⟩

/-! ## Pipeline Orchestrator (`app.py` lines 62-116) and claim C7 -/

/-- One parsed PubMed article record (`app.py` lines 50-58). -/
structure ArticleRecord where
  pmid : String
  title : String
  link : String
  journal : String
  date : String
deriving DecidableEq

/-- Embedding of the pipeline from `df = pd.DataFrame(records)` (line
62) through the three frequency tables (lines 96-116).

`pd.DataFrame(records)` on an empty `records` list yields a DataFrame
with no columns at all, so the column access `df['Title']` on line 82
raises an uncaught `KeyError('Title')`; that exception is modelled as
`Except.error`.  On a nonempty batch, `df['entities'] =
df['Title'].apply(get_entities)` enriches every record in order, and the
three tables are `Counter(all_words)`, `Counter(bigrams)` and
`Counter(trigrams)`. -/
def run_pipeline (records : List ArticleRecord) (hf_token : String)
    (net : String → NerResponse) :
    Except String (List (ArticleRecord × List String)
      × List (String × Nat) × List (String × Nat) × List (String × Nat)) :=
  if records.isEmpty then .error "KeyError: Title"
  else
    let enriched := records.map fun a =>
      (a, (get_entities hf_token a.title (net a.title)).1)
    let lists := enriched.map Prod.snd
    .ok (enriched, counter (all_words lists),
      counter (get_ngrams lists 2), counter (get_ngrams lists 3))

/-- C7 (divergence): on the empty article batch the run does not produce
three empty frequency tables — `pd.DataFrame([])` has no `Title` column,
so line 82 raises `KeyError('Title')` and the run aborts, whatever the
credential and the network do. -/
theorem c7_run_pipeline_empty (hf_token : String)
    (net : String → NerResponse) :
    run_pipeline [] hf_token net = .error "KeyError: Title" := rfl

/-! ## Search boundary (`app.py` lines 36-37) and claim C8 -/

/-- A minimal JSON value, as far as the esearch response handling needs
one. -/
inductive JVal where
  | null
  | str (s : String)
  | arr (xs : List String)
  | obj (fields : List (String × JVal))

/-- Python dict lookup: the value of the first field named `k`, if
any. -/
def lookupField : List (String × JVal) → String → Option JVal
  | [], _ => none
  | (k', v) :: rest, k => if k' = k then some v else lookupField rest k

/-- Embedding of `id_list = r.json()["esearchresult"].get("idlist", [])`
(`app.py` line 37).  The subscript `["esearchresult"]` on a dict without
that key raises an uncaught `KeyError` (and a `TypeError` on a
non-dict); `.get` on a non-dict value raises `AttributeError`;
`.get("idlist", [])` returns the default `[]` when `idlist` is
absent. -/
def esearch_id_list (resp : JVal) : Except String JVal :=
  match resp with
  | .obj fields =>
    match lookupField fields "esearchresult" with
    | some (.obj inner) => .ok ((lookupField inner "idlist").getD (.arr []))
    | some _ => .error "AttributeError"
    | none => .error "KeyError: esearchresult"
  | _ => .error "TypeError"

/-- C8 counterexample: a response object that lacks the expected
`esearchresult` key does not propagate an empty identifier list — the
subscript raises an unhandled `KeyError` and the run crashes. -/
theorem c8_esearch_counterexample :
    esearch_id_list (.obj [("header", .null)])
        = .error "KeyError: esearchresult"
    ∧ esearch_id_list (.obj [("header", .null)]) ≠ .ok (.arr []) :=
  ⟨rfl, fun h => Except.noConfusion h⟩

/-- C8 (amended): only the `idlist` key is defaulted — when the
`esearchresult` object lacks `idlist`, `.get` supplies `[]` and an empty
identifier list propagates; when `esearchresult` itself is missing, the
subscript raises an unhandled `KeyError` instead. -/
theorem c8_esearch_amended (inner : List (String × JVal))
    (h : lookupField inner "idlist" = none) :
    esearch_id_list (.obj [("esearchresult", .obj inner)]) = .ok (.arr [])
    ∧ (∀ fields, lookupField fields "esearchresult" = none →
        esearch_id_list (.obj fields) = .error "KeyError: esearchresult") := by
  constructor
  · simp [esearch_id_list, lookupField, h]
  · intro fields hf
    simp [esearch_id_list, hf]

/-- C8 witness: the amended theorem applied at a concrete
`esearchresult` object that carries no `idlist`. -/
theorem c8_esearch_amended_witness :
    esearch_id_list (.obj [("esearchresult", .obj [("count", .str "0")])])
        = .ok (.arr []) :=
  (c8_esearch_amended [("count", .str "0")] rfl).1

end PubMed
